import Mathlib

/-!
# Verification of the adl-lsp incremental cross-file symbol-resolution core

Shallow embedding of the Rust sources of `adl-lsp` (files under
`src/rust/adl-lsp/src/`).  Conventions used throughout:

* File-system paths and URIs are modelled as lists of path components
  (`List String`); `Url::from_file_path` and `Url::path` are the identity
  under this representation.
* Tree-sitter syntax trees are modelled by the inductive `NTree`; every node
  carries its kind tag (the closed `NodeKind` vocabulary of
  `node/kind.rs`), the source text of its span (standing for
  `Node::utf8_text(content)`), and a numeric node identifier `sid` standing
  for the node's span/identity (`Node::id()` / its range).  A tree-sitter
  cursor is confined to the subtree it was created on, so traversal of a
  node visits exactly its subtree in pre-order.
* Parent pointers are modelled by carrying the ancestor chain (nearest
  parent first) alongside a node (`PNode`); the Rust parent-link walks
  become folds over that chain.
* `HashMap` is modelled as an association list with in-place replacing
  insert and key-removal; `HashSet` as a duplicate-free-by-construction
  list with membership-tested insert.  Iteration order of a `HashMap` is
  unspecified in Rust; the association-list order plays that role.
* File-system access (`fs::exists`, `fs::metadata`, `fs::read_to_string`)
  and the tree-sitter parser are external components; they are passed in as
  explicit oracle functions, mirroring the injected `document_exists`
  predicate the source itself uses for testability.
* Rust `panic!`/`expect` paths are total-ised with a default value; every
  theorem below stays on non-panicking inputs.
-/

/-! ## `node/kind.rs` — the closed node-kind vocabulary

`NodeKind` is the closed tagged enumeration of tree-sitter node kind
strings.  The variant spelled `Annotation` in the Rust source is spelled
`Annotation_` here (its raw-string form is unchanged). -/

inductive NodeKind where
  | Comment
  | Docstring
  | DefinitionPreamble
  | Identifier
  | ScopedName
  | TypeName
  | TypeParameters
  | TypeArguments
  | TypeExpression
  | PrimitiveType
  | TypeDefinition
  | NewtypeDefinition
  | StructDefinition
  | UnionDefinition
  | Field
  | FieldBlock
  | ModuleDefinition
  | ModuleBody
  | ImportDeclaration
  | ImportPath
  | Annotation_
  | Annotations_
  | AnnotationDeclaration
  | FieldReference
  | JsonValue
  | JsonNumber
  | JsonString
  | JsonArray
  | JsonObject
  | JsonObjectPair
  | Error
deriving DecidableEq, Repr

/-- `NodeKind::from_str` (`node/kind.rs:85`).  A Rust `match` on string
literals tests the scrutinee against each literal in order, defaulting to
`Self::Error`; that sequential test is written out as an `if`-chain. -/
def NodeKind.from_str (s : String) : NodeKind :=
  if s = "comment" then .Comment
  else if s = "docstring" then .Docstring
  else if s = "definition_preamble" then .DefinitionPreamble
  else if s = "identifier" then .Identifier
  else if s = "scoped_name" then .ScopedName
  else if s = "type_name" then .TypeName
  else if s = "type_parameters" then .TypeParameters
  else if s = "type_arguments" then .TypeArguments
  else if s = "type_expression" then .TypeExpression
  else if s = "primitive_type" then .PrimitiveType
  else if s = "type_definition" then .TypeDefinition
  else if s = "newtype_definition" then .NewtypeDefinition
  else if s = "struct_definition" then .StructDefinition
  else if s = "union_definition" then .UnionDefinition
  else if s = "field" then .Field
  else if s = "field_block" then .FieldBlock
  else if s = "module_definition" then .ModuleDefinition
  else if s = "module_body" then .ModuleBody
  else if s = "import_declaration" then .ImportDeclaration
  else if s = "import_path" then .ImportPath
  else if s = "annotation" then .Annotation_
  else if s = "annotations" then .Annotations_
  else if s = "annotation_declaration" then .AnnotationDeclaration
  else if s = "field_reference" then .FieldReference
  else if s = "json_value" then .JsonValue
  else if s = "json_number" then .JsonNumber
  else if s = "json_string" then .JsonString
  else if s = "json_array" then .JsonArray
  else if s = "json_object" then .JsonObject
  else if s = "json_object_pair" then .JsonObjectPair
  else .Error

/-- `NodeKind::as_str` (`node/kind.rs:136`). -/
def NodeKind.as_str : NodeKind → String
  | .Comment => "comment"
  | .Docstring => "docstring"
  | .DefinitionPreamble => "definition_preamble"
  | .Identifier => "identifier"
  | .ScopedName => "scoped_name"
  | .TypeName => "type_name"
  | .TypeParameters => "type_parameters"
  | .TypeArguments => "type_arguments"
  | .TypeExpression => "type_expression"
  | .PrimitiveType => "primitive_type"
  | .TypeDefinition => "type_definition"
  | .NewtypeDefinition => "newtype_definition"
  | .StructDefinition => "struct_definition"
  | .UnionDefinition => "union_definition"
  | .Field => "field"
  | .FieldBlock => "field_block"
  | .ModuleDefinition => "module_definition"
  | .ModuleBody => "module_body"
  | .ImportDeclaration => "import_declaration"
  | .ImportPath => "import_path"
  | .Annotation_ => "annotation"
  | .Annotations_ => "annotations"
  | .AnnotationDeclaration => "annotation_declaration"
  | .FieldReference => "field_reference"
  | .JsonValue => "json_value"
  | .JsonNumber => "json_number"
  | .JsonString => "json_string"
  | .JsonArray => "json_array"
  | .JsonObject => "json_object"
  | .JsonObjectPair => "json_object_pair"
  | .Error => "ERROR"

/-- The kind strings `NodeKind::from_str` recognises, in match order. -/
def nodeKindKnownStrings : List String :=
  ["comment", "docstring", "definition_preamble", "identifier", "scoped_name",
   "type_name", "type_parameters", "type_arguments", "type_expression",
   "primitive_type", "type_definition", "newtype_definition",
   "struct_definition", "union_definition", "field", "field_block",
   "module_definition", "module_body", "import_declaration", "import_path",
   "annotation", "annotations", "annotation_declaration", "field_reference",
   "json_value", "json_number", "json_string", "json_array", "json_object",
   "json_object_pair"]

/-- C9: node-kind string round-trip.  For every variant `k` of the closed
node-kind enumeration (including `Error`, whose string form is `"ERROR"`),
`NodeKind::from_str (k.as_str()) = k`; and `from_str` is total, mapping
every string outside the recognised vocabulary to `Error`. -/
theorem nodeKind_from_str_roundtrip_and_default :
    (∀ k : NodeKind, NodeKind.from_str k.as_str = k) ∧
    (∀ s : String, s ∉ nodeKindKnownStrings → NodeKind.from_str s = NodeKind.Error) := by
  constructor
  · intro k
    cases k <;> rfl
  · intro s hs
    simp only [nodeKindKnownStrings, List.mem_cons, List.not_mem_nil, or_false,
      not_or] at hs
    obtain ⟨h1, h2, h3, h4, h5, h6, h7, h8, h9, h10, h11, h12, h13, h14, h15,
      h16, h17, h18, h19, h20, h21, h22, h23, h24, h25, h26, h27, h28, h29,
      h30⟩ := hs
    simp only [NodeKind.from_str, h1, h2, h3, h4, h5, h6, h7, h8, h9, h10, h11,
      h12, h13, h14, h15, h16, h17, h18, h19, h20, h21, h22, h23, h24, h25,
      h26, h27, h28, h29, h30, if_false]

/-- Witness for C9: an instantiation of both conjuncts at concrete inputs. -/
theorem nodeKind_from_str_roundtrip_and_default_witness :
    NodeKind.from_str (NodeKind.as_str .Error) = NodeKind.Error ∧
    NodeKind.from_str "not_a_kind" = NodeKind.Error :=
  ⟨nodeKind_from_str_roundtrip_and_default.1 .Error,
   nodeKind_from_str_roundtrip_and_default.2 "not_a_kind" (by decide)⟩

/-! ## `server/modules.rs` — module path resolution

Paths are lists of components.  `Path::join` of a relative path appends its
components; `format!("{}.adl", imported_module_path.join("/"))` is a
relative path whose components are the module-path segments with `.adl`
appended to the last. -/

abbrev AdlPath := List String

/-- Rust `str::split(sep)` on a character list: `n` separators yield `n + 1`
fields (the empty string yields `[""]`). -/
def splitChar (sep : Char) : List Char → List (List Char)
  | [] => [[]]
  | c :: cs =>
    match splitChar sep cs with
    | [] => [[]]
    | f :: fs => if c = sep then [] :: f :: fs else (c :: f) :: fs

/-- Rust `source_module.split('.')`, as a kernel-computable function. -/
def splitDot (s : String) : List String :=
  (splitChar '.' s.toList).map (fun l => String.mk l)

/-- The components of the relative path
`imported_module_path.join("/") + ".adl"`. -/
def moduleRelPath : List String → List String
  | [] => [".adl"]
  | [p] => [p ++ ".adl"]
  | p :: ps => p :: moduleRelPath ps

/-- `Path::ancestors().nth(n)`: the path itself at `n = 0`, then each parent
in turn (the filesystem root is the last ancestor); `none` once the walk has
run past the root. -/
def ancestorNth (p : AdlPath) (n : Nat) : Option AdlPath :=
  if n ≤ p.length then some (p.take (p.length - n)) else none

/-- The `for root in package_roots` loop of `resolve_import`
(`server/modules.rs:54`): skip a candidate identical to the same-package
candidate, return the first remaining candidate that exists. -/
def resolveFromRoots : List AdlPath → Option AdlPath → List String →
    (AdlPath → Bool) → Option AdlPath
  | [], _, _, _ => none
  | root :: roots, spt, imported_module_path, document_exists =>
    let target_path := root ++ moduleRelPath imported_module_path
    if spt = some target_path then
      resolveFromRoots roots spt imported_module_path document_exists
    else if document_exists target_path then some target_path
    else resolveFromRoots roots spt imported_module_path document_exists

/-- `resolve_import` (`server/modules.rs:23`).  `source_uri` is the source
file's path (`Url::path`); `Url::from_file_path` is the identity in the
path-as-components model. -/
def resolve_import (package_roots : List AdlPath) (source_uri : AdlPath)
    (source_module : String) (imported_module_path : List String)
    (document_exists : AdlPath → Bool) : Option AdlPath :=
  let source_module_path := splitDot source_module
  let source_module_depth := source_module_path.length
  let adl_root := ancestorNth source_uri source_module_depth
  let source_package_target_path :=
    adl_root.map (fun adl => adl ++ moduleRelPath imported_module_path)
  match source_package_target_path with
  | some spt =>
    if document_exists spt then some spt
    else resolveFromRoots package_roots (some spt) imported_module_path
      document_exists
  | none =>
    resolveFromRoots package_roots none imported_module_path document_exists

/-- The ordered candidate sequence the resolver probes: the same-package
candidate (when the implied root exists) first, then each configured search
directory's candidate in declaration order, skipping any identical to the
same-package candidate. -/
def candidateList (package_roots : List AdlPath) (source_uri : AdlPath)
    (source_module : String) (imported_module_path : List String) :
    List AdlPath :=
  let spt := (ancestorNth source_uri (splitDot source_module).length).map
    (fun adl => adl ++ moduleRelPath imported_module_path)
  spt.toList ++
    (package_roots.map
      (fun r => r ++ moduleRelPath imported_module_path)).filter
      (fun t => decide (spt ≠ some t))

theorem resolveFromRoots_eq_find (roots : List AdlPath) (spt : Option AdlPath)
    (imp : List String) (ex : AdlPath → Bool) :
    resolveFromRoots roots spt imp ex =
      ((roots.map (fun r => r ++ moduleRelPath imp)).filter
        (fun t => decide (spt ≠ some t))).find? ex := by
  induction roots with
  | nil => rfl
  | cons r rs ih =>
    simp only [resolveFromRoots, List.map_cons, List.filter_cons]
    by_cases h : spt = some (r ++ moduleRelPath imp)
    · rw [if_pos h]
      have hc : decide (spt ≠ some (r ++ moduleRelPath imp)) = false := by
        simp [h]
      rw [hc]
      simpa using ih
    · rw [if_neg h]
      have hc : decide (spt ≠ some (r ++ moduleRelPath imp)) = true := by
        simpa using h
      rw [hc]
      simp only [if_true]
      by_cases hex : ex (r ++ moduleRelPath imp)
      · rw [if_pos hex, List.find?_cons_of_pos _ hex]
      · rw [if_neg hex, List.find?_cons_of_neg _ hex]
        exact ih

/-- C4 (amended): the resolver probes the candidates in order — same-package
candidate first, then the search-directory candidates in declaration order
with duplicates of the same-package candidate skipped — and returns the
*first* one that exists, as an `Option` holding at most one hit; it returns
`none`, not an error, when no candidate exists anywhere. -/
theorem resolve_import_eq_find_first_candidate (package_roots : List AdlPath)
    (source_uri : AdlPath) (source_module : String)
    (imported_module_path : List String) (document_exists : AdlPath → Bool) :
    resolve_import package_roots source_uri source_module imported_module_path
        document_exists =
      (candidateList package_roots source_uri source_module
        imported_module_path).find? document_exists := by
  unfold resolve_import candidateList
  cases h : ancestorNth source_uri (splitDot source_module).length with
  | none =>
    simp only [h, Option.map_none', Option.toList_none, List.nil_append]
    exact resolveFromRoots_eq_find package_roots none imported_module_path
      document_exists
  | some adl =>
    simp only [h, Option.map_some', Option.toList_some, List.singleton_append]
    by_cases hex : document_exists (adl ++ moduleRelPath imported_module_path)
    · rw [if_pos hex, List.find?_cons_of_pos _ hex]
    · rw [if_neg hex, List.find?_cons_of_neg _ hex]
      exact resolveFromRoots_eq_find package_roots _ imported_module_path
        document_exists

/-- The existence predicate of the C4 counterexample: exactly the two
search-directory candidates exist on disk. -/
def c4Exists : AdlPath → Bool := fun p =>
  decide (p = ["r1", "m.adl"]) || decide (p = ["r2", "m.adl"])

/-- Counterexample to C4 as stated: with two existing search-directory
candidates (and no existing same-package candidate), the resolver does *not*
return the full list of hits — the second existing candidate `r2/m.adl` is
absent from the returned value, which is only the single first hit
`r1/m.adl`. -/
theorem resolve_import_not_all_hits_counterexample :
    c4Exists ["r2", "m.adl"] = true ∧
    resolve_import [["r1"], ["r2"]] ["pkg", "src", "main.adl"] "src.main"
      ["m"] c4Exists = some ["r1", "m.adl"] ∧
    ["r2", "m.adl"] ∉
      (resolve_import [["r1"], ["r2"]] ["pkg", "src", "main.adl"] "src.main"
        ["m"] c4Exists).toList := by
  refine ⟨rfl, by decide, by decide⟩

/-- C3: same-package resolution always takes precedence.  Whenever the
candidate built from the source file's implied package root exists (per the
injected existence predicate), the resolver returns it, and it is the head
of the ordered candidate sequence — ahead of every search-directory
candidate. -/
theorem resolve_import_same_package_first (package_roots : List AdlPath)
    (source_uri : AdlPath) (source_module : String)
    (imported_module_path : List String) (document_exists : AdlPath → Bool)
    (adl : AdlPath)
    (hroot : ancestorNth source_uri (splitDot source_module).length
      = some adl)
    (hex : document_exists (adl ++ moduleRelPath imported_module_path)
      = true) :
    resolve_import package_roots source_uri source_module imported_module_path
        document_exists = some (adl ++ moduleRelPath imported_module_path) ∧
    (candidateList package_roots source_uri source_module
        imported_module_path).head?
      = some (adl ++ moduleRelPath imported_module_path) := by
  constructor
  · unfold resolve_import
    simp [hroot, hex]
  · unfold candidateList
    simp [hroot]

/-- Witness for C3, on the precedence scenario of the specification: search
directories `[adl2, otherProjectAdl, adl]`, source file `adl/common/main.adl`
declaring module `common.main`, target `common.strings`, all candidates
existing; the same-package candidate `adl/common/strings.adl` is returned. -/
theorem resolve_import_same_package_first_witness :
    resolve_import [["adl2"], ["otherProjectAdl"], ["adl"]]
        ["adl", "common", "main.adl"] "common.main" ["common", "strings"]
        (fun _ => true) = some ["adl", "common", "strings.adl"] ∧
    (candidateList [["adl2"], ["otherProjectAdl"], ["adl"]]
        ["adl", "common", "main.adl"] "common.main"
        ["common", "strings"]).head?
      = some ["adl", "common", "strings.adl"] :=
  resolve_import_same_package_first _ _ _ _ _ ["adl"] (by decide) rfl

theorem ancestorNth_append (pre post : AdlPath) :
    ancestorNth (pre ++ post) post.length = some pre := by
  simp [ancestorNth, Nat.le_add_left, List.take_left']

/-- C5: implied-root depth correctness.  For a source file `pre ++ post`
whose declared module name has exactly `post.length` dot-separated segments,
the implied package root is `pre` — exactly that many ancestor steps up —
and an existing same-package candidate under `pre` is resolved. -/
theorem resolve_import_implied_root_depth (package_roots : List AdlPath)
    (pre post : AdlPath) (source_module : String)
    (imported_module_path : List String) (document_exists : AdlPath → Bool)
    (hdepth : post.length = (splitDot source_module).length)
    (hex : document_exists (pre ++ moduleRelPath imported_module_path)
      = true) :
    resolve_import package_roots (pre ++ post) source_module
        imported_module_path document_exists
      = some (pre ++ moduleRelPath imported_module_path) :=
  (resolve_import_same_package_first package_roots (pre ++ post) source_module
    imported_module_path document_exists pre
    (by rw [← hdepth]; exact ancestorNth_append pre post) hex).1

/-- Witness for C5, on the depth scenario of the specification: a file at
`adl/a/b/c/d/e/f/g/module.adl` declaring module `a.b.c.d.e.f.g.module`
(8 segments) resolving import path `[a,b,c,d,e,ff,gg,hh,ii,module]` resolves
to `adl/a/b/c/d/e/ff/gg/hh/ii/module.adl`. -/
theorem resolve_import_implied_root_depth_witness :
    resolve_import [["adl"]]
        (["adl"] ++ ["a", "b", "c", "d", "e", "f", "g", "module.adl"])
        "a.b.c.d.e.f.g.module"
        ["a", "b", "c", "d", "e", "ff", "gg", "hh", "ii", "module"]
        (fun _ => true)
      = some (["adl"] ++
          ["a", "b", "c", "d", "e", "ff", "gg", "hh", "ii", "module.adl"]) :=
  resolve_import_implied_root_depth [["adl"]] ["adl"]
    ["a", "b", "c", "d", "e", "f", "g", "module.adl"] "a.b.c.d.e.f.g.module"
    ["a", "b", "c", "d", "e", "ff", "gg", "hh", "ii", "module"] (fun _ => true)
    (by decide) rfl

/-! ## Syntax trees and the query primitives of `parser/tree.rs`,
`node/mod.rs` and `node/kind.rs`

Every node carries its `NodeKind` tag (`Node::kind()` interpreted through
the closed vocabulary, see the round-trip theorem above), the source text of
its span (`Node::utf8_text(content)`), and a numeric identifier `sid`
standing for `Node::id()` and the node's range.  Anonymous token nodes
(keywords, punctuation) have kind tags outside the named vocabulary and are
represented with kind `Error` — no query predicate ever matches them. -/

structure NodeData where
  kind : NodeKind
  text : String
  sid : Nat
deriving DecidableEq, Repr

inductive NTree where
  | node (data : NodeData) (children : List NTree)

def NTree.data : NTree → NodeData
  | .node d _ => d

def NTree.children : NTree → List NTree
  | .node _ cs => cs

/-- `Node::child(i)` (includes anonymous token children, as in
tree-sitter). -/
def NTree.child (t : NTree) (i : Nat) : Option NTree := t.children.get? i

/-- A node together with its ancestor chain, nearest parent first: the model
of a tree-sitter `Node` with its parent links. -/
structure PNode where
  node : NTree
  ancestors : List NTree

mutual

/-- Pre-order traversal of a subtree (`Tree::walk_and_filter` with
`early = false` visits exactly the cursor's subtree in document order),
carrying ancestor chains. -/
def preorderCtx : NTree → List NTree → List PNode
  | .node d cs, anc =>
    ⟨.node d cs, anc⟩ :: preorderCtxList cs (.node d cs :: anc)

/-- Pre-order traversal of a forest of siblings. -/
def preorderCtxList : List NTree → List NTree → List PNode
  | [], _ => []
  | c :: cs, anc => preorderCtx c anc ++ preorderCtxList cs anc

end

/-- `ParsedTree` (`parser/mod.rs:23`): a file URI together with its
immutable syntax tree. -/
structure ParsedTree where
  uri : AdlPath
  root : NTree

/-- `Tree::find_all_nodes_from` (`parser/tree.rs:80`): all nodes of the
subtree satisfying the predicate, in document order. -/
def ParsedTree.find_all_nodes_from (p : PNode) (f : NTree → Bool) :
    List PNode :=
  (preorderCtx p.node p.ancestors).filter (fun q => f q.node)

/-- `Tree::find_all_nodes` (`parser/tree.rs:76`). -/
def ParsedTree.find_all_nodes (t : ParsedTree) (f : NTree → Bool) :
    List PNode :=
  ParsedTree.find_all_nodes_from ⟨t.root, []⟩ f

/-- `Tree::find_first_node` (`parser/tree.rs:85`): first match in document
order (`walk_and_filter` with `early = true`). -/
def ParsedTree.find_first_node (t : ParsedTree) (f : NTree → Bool) :
    Option PNode :=
  (preorderCtx t.root []).find? (fun q => f q.node)

/-- `NodeKind::is_identifier` and friends (`node/kind.rs:188` onward): a
kind-tag test. -/
def NodeKind.is_identifier (n : NTree) : Bool :=
  decide (n.data.kind = NodeKind.Identifier)

def NodeKind.is_scoped_name (n : NTree) : Bool :=
  decide (n.data.kind = NodeKind.ScopedName)

def NodeKind.is_type_name (n : NTree) : Bool :=
  decide (n.data.kind = NodeKind.TypeName)

def NodeKind.is_definition_preamble (n : NTree) : Bool :=
  decide (n.data.kind = NodeKind.DefinitionPreamble)

def NodeKind.is_type_definition (n : NTree) : Bool :=
  decide (n.data.kind = NodeKind.TypeDefinition)

def NodeKind.is_newtype_definition (n : NTree) : Bool :=
  decide (n.data.kind = NodeKind.NewtypeDefinition)

def NodeKind.is_struct_definition (n : NTree) : Bool :=
  decide (n.data.kind = NodeKind.StructDefinition)

def NodeKind.is_union_definition (n : NTree) : Bool :=
  decide (n.data.kind = NodeKind.UnionDefinition)

def NodeKind.is_module_definition (n : NTree) : Bool :=
  decide (n.data.kind = NodeKind.ModuleDefinition)

def NodeKind.is_import_declaration (n : NTree) : Bool :=
  decide (n.data.kind = NodeKind.ImportDeclaration)

/-- `NodeKind::is_user_defined_name` (`node/kind.rs:57`). -/
def NodeKind.is_user_defined_name (n : NTree) : Bool :=
  NodeKind.is_identifier n || NodeKind.is_type_name n ||
    NodeKind.is_scoped_name n

/-- `NodeKind::is_local_definition` (`node/kind.rs:61`). -/
def NodeKind.is_local_definition (n : NTree) : Bool :=
  NodeKind.is_type_definition n || NodeKind.is_newtype_definition n ||
    NodeKind.is_struct_definition n || NodeKind.is_union_definition n

/-- `NodeKind::is_definition` (`node/kind.rs:68`), verbatim — including the
duplicated `is_import_declaration` disjunct of the source. -/
def NodeKind.is_definition (n : NTree) : Bool :=
  NodeKind.is_import_declaration n || NodeKind.is_type_name n ||
    NodeKind.is_import_declaration n

/-- `NodeKind::has_scoped_name_parent` (`node/kind.rs:73`): an identifier
whose immediate parent is a `scoped_name` node. -/
def NodeKind.has_scoped_name_parent (p : PNode) : Bool :=
  NodeKind.is_identifier p.node &&
    (match p.ancestors with
     | parent :: _ => NodeKind.is_scoped_name parent
     | [] => false)

/-- `NodeKind::can_be_referenced` (`node/kind.rs:79`): an identifier whose
immediate parent is a `type_name` node. -/
def NodeKind.can_be_referenced (p : PNode) : Bool :=
  NodeKind.is_identifier p.node &&
    (match p.ancestors with
     | parent :: _ => NodeKind.is_type_name parent
     | [] => false)

/-! ## `node/mod.rs` — typed views on module and import nodes -/

/-- `AdlImportDeclaration` (`node/mod.rs:76`); each variant carries the
`import_declaration` node. -/
inductive AdlImportDeclaration where
  | FullyQualified (node : NTree)
  | StarImport (node : NTree)

/-- `AdlImportDeclaration::is_star_import` (`node/mod.rs:94`):
`node.child(1)` is the `import_path`; a second child of the `import_path`
(the `.*`) marks a star import. -/
def AdlImportDeclaration.is_star_import (node : NTree) : Bool :=
  ((node.child 1).map (fun ip => (ip.child 1).isSome)).getD false

/-- `AdlImportDeclaration::try_new` (`node/mod.rs:82`). -/
def AdlImportDeclaration.try_new (node : NTree) : Option AdlImportDeclaration :=
  if NodeKind.is_import_declaration node then
    if AdlImportDeclaration.is_star_import node then
      some (.StarImport node)
    else some (.FullyQualified node)
  else none

/-- The text before the last `'.'` of `full`, or `full` when it has no dot
(`full_name.rfind('.')` and the slice before it, `node/mod.rs:112`). -/
def stringBeforeLastDot (full : String) : String :=
  match (splitDot full).dropLast with
  | [] => full
  | parts => String.intercalate "." parts

/-- `AdlImportDeclaration::module_name` (`node/mod.rs:101`): for a plain
declaration, the `import_path` text with the trailing type name removed;
for a star declaration, the `scoped_name` child of the `import_path`
(dropping the `.*`). -/
def AdlImportDeclaration.module_name : AdlImportDeclaration → String
  | .FullyQualified node =>
    stringBeforeLastDot (((node.child 1).map (fun c => c.data.text)).getD "")
  | .StarImport node =>
    (((node.child 1).bind (fun ip => ip.child 0)).map
      (fun c => c.data.text)).getD ""

/-- `AdlImportDeclaration::imported_type_name` (`node/mod.rs:129`): the last
dot-separated segment of the `import_path` text for a plain import. -/
def AdlImportDeclaration.imported_type_name :
    AdlImportDeclaration → Option String
  | .FullyQualified node =>
    (splitDot (((node.child 1).map (fun c => c.data.text)).getD "")).getLast?
  | .StarImport _ => none

/-- `AdlModuleDefinition::module_name` (`node/mod.rs:48`): the `scoped_name`
child after the `module` keyword, skipping an optional preamble. -/
def moduleDefinitionName (node : NTree) : String :=
  match node.child 0 with
  | none => ""
  | some module_or_preamble =>
    if NodeKind.is_definition_preamble module_or_preamble then
      ((node.child 2).map (fun c => c.data.text)).getD ""
    else ((node.child 1).map (fun c => c.data.text)).getD ""

/-- `ParsedTree::get_module_name` (`parser/mod.rs:52`). -/
def ParsedTree.get_module_name (t : ParsedTree) : Option String :=
  (t.find_first_node NodeKind.is_module_definition).map
    (fun p => moduleDefinitionName p.node)

/-! ## `parser/definition.rs`, `parser/references.rs`, `parser/hover.rs` —
the per-file query primitives -/

/-- An LSP `Location`: a URI and the node's span (represented by the node
identifier `sid`). -/
structure Location where
  uri : AdlPath
  sid : Nat
deriving DecidableEq, Repr

/-- `UnresolvedImport` (`parser/definition.rs:18`). -/
structure UnresolvedImport where
  source_module : String
  target_module_path : List String
  identifier : String
deriving DecidableEq, Repr

/-- `DefinitionLocation` (`parser/definition.rs:25`). -/
inductive DefinitionLocation where
  | Resolved (location : Location)
  | Import (unresolved : UnresolvedImport)
deriving DecidableEq, Repr

/-- `DefinitionKind` (`parser/definition.rs:12`). -/
inductive DefinitionKind where
  | Definition (p : PNode)
  | Import (decl : AdlImportDeclaration) (identifier : String)

/-- `ParsedTree::is_from_definition` (`parser/definition.rs:47`): the node
or one of its ancestors satisfies `NodeKind::is_definition`. -/
def ParsedTree.is_from_definition (p : PNode) : Bool :=
  (p.node :: p.ancestors).any NodeKind.is_definition

/-- `ParsedTree::is_from_import_declaration` (`parser/definition.rs:51`):
the nearest enclosing `import_declaration` (the node itself included),
as a typed view.  The Rust function returns the pair
`(bool, Option<AdlImportDeclaration>)`; the `Option` carries both. -/
def ParsedTree.is_from_import_declaration (p : PNode) :
    Option AdlImportDeclaration :=
  ((p.node :: p.ancestors).find? NodeKind.is_import_declaration).bind
    AdlImportDeclaration.try_new

/-- `ParsedTree::get_source_module` (`parser/definition.rs:177`): walk to
the nearest enclosing `module_definition` and take its `child(1)` text. -/
def ParsedTree.get_source_module (p : PNode) : Option String :=
  ((p.node :: p.ancestors).find? NodeKind.is_module_definition).bind
    (fun n => (n.child 1).map (fun c => c.data.text))

/-- `ParsedTree::definition_location` (`parser/definition.rs:144`). -/
def ParsedTree.definition_location (t : ParsedTree) (d : DefinitionKind) :
    DefinitionLocation :=
  match d with
  | .Definition p => .Resolved ⟨t.uri, p.node.data.sid⟩
  | .Import decl identifier =>
    .Import
      { source_module := (t.get_module_name).getD ""
        target_module_path := splitDot decl.module_name
        identifier := identifier }

/-- `ParsedTree::definition_impl` (`parser/definition.rs:65`). -/
def ParsedTree.definition_impl (t : ParsedTree) (identifier : String)
    (n : PNode) : Option DefinitionLocation :=
  if identifier = "" then none
  else
    let locations :=
      (((ParsedTree.find_all_nodes_from n NodeKind.is_user_defined_name).filter
        (fun q => q.node.data.text == identifier)).filter
        (fun q =>
          let is_from_definition := ParsedTree.is_from_definition q
          let is_from_import :=
            (ParsedTree.is_from_import_declaration q).isSome
          is_from_import ||
            (is_from_definition && !(NodeKind.is_identifier q.node)))).map
        (fun q =>
          match ParsedTree.is_from_import_declaration q with
          | some import_node => DefinitionKind.Import import_node identifier
          | none => DefinitionKind.Definition q)
      |>.map (fun d => t.definition_location d)
    let locations :=
      if locations.isEmpty then
        ((ParsedTree.find_all_nodes_from n NodeKind.is_scoped_name).filter
          (fun q =>
            q.node.data.text.endsWith ("." ++ identifier) ||
              q.node.data.text == identifier)).map
          (fun q =>
            let parts := splitDot q.node.data.text
            if parts.length > 1 then
              DefinitionLocation.Import
                { source_module := (ParsedTree.get_source_module q).getD ""
                  target_module_path := parts.dropLast
                  identifier := identifier }
            else
              DefinitionLocation.Resolved ⟨t.uri, q.node.data.sid⟩)
      else locations
    locations.head?

/-- `Definition::definition` (`parser/definition.rs:36`): `definition_impl`
started at the root node. -/
def ParsedTree.definition (t : ParsedTree) (identifier : String) :
    Option DefinitionLocation :=
  t.definition_impl identifier ⟨t.root, []⟩

/-- `ParsedTree::find_references_impl` (`parser/references.rs:22`). -/
def ParsedTree.find_references_impl (t : ParsedTree) (identifier : String)
    (n : PNode) : List Location :=
  if identifier = "" then []
  else
    let all_user_defined_names :=
      ParsedTree.find_all_nodes_from n NodeKind.is_user_defined_name
    let matching_names :=
      all_user_defined_names.filter (fun q => q.node.data.text == identifier)
    let filtered_names :=
      matching_names.filter (fun q =>
        !(ParsedTree.is_from_definition q) &&
          !(ParsedTree.is_from_import_declaration q).isSome)
    let deduped_names :=
      filtered_names.filter (fun q =>
        if NodeKind.is_scoped_name q.node then true
        else if NodeKind.is_identifier q.node then
          match q.ancestors with
          | parent :: _ =>
            !(NodeKind.is_scoped_name parent &&
              parent.data.text == identifier)
          | [] => true
        else true)
    deduped_names.map (fun q => ({ uri := t.uri, sid := q.node.data.sid } : Location))

/-- `References::find_references` (`parser/references.rs:14`). -/
def ParsedTree.find_references (t : ParsedTree) (identifier : String) :
    List Location :=
  t.find_references_impl identifier ⟨t.root, []⟩

/-- `ParsedTree::get_hover_text` (`parser/hover.rs:47`): advance a cursor
from the root to the node with identifier `nid`, require a user-defined
name, and return the parent node's (trimmed) source text as the hover
fragment. -/
def ParsedTree.get_hover_text (t : ParsedTree) (nid : Nat) : List String :=
  let p := ((preorderCtx t.root []).find?
    (fun q => q.node.data.sid == nid)).getD ⟨t.root, []⟩
  if !(NodeKind.is_user_defined_name p.node) then []
  else
    match p.ancestors with
    | [] => []
    | def_node :: _ => [def_node.data.text.trim]

/-- `ParsedTree::hover_impl` (`parser/hover.rs:22`). -/
def ParsedTree.hover_impl (t : ParsedTree) (identifier : String) (n : PNode) :
    List String :=
  if identifier = "" then []
  else
    ((ParsedTree.find_all_nodes_from n NodeKind.is_user_defined_name).filterMap
      (fun q =>
        (q.node.child 0).bind (fun id_node =>
          if ParsedTree.is_from_definition ⟨id_node, q.node :: q.ancestors⟩
          then
            if id_node.data.text == identifier then some q else none
          else none))).flatMap
      (fun q => t.get_hover_text q.node.data.sid)

/-- `Hover::hover` (`parser/hover.rs:14`). -/
def ParsedTree.hover (t : ParsedTree) (identifier : String) : List String :=
  t.hover_impl identifier ⟨t.root, []⟩

/-- C10: the empty-identifier guard at the query interface.  For every
parsed tree, querying with the empty string yields the no-result value:
`definition` returns `none`, `find_references` returns `[]`, and `hover`
returns `[]`. -/
theorem empty_identifier_queries_yield_nothing (t : ParsedTree) :
    t.definition "" = none ∧ t.find_references "" = [] ∧ t.hover "" = [] :=
  ⟨rfl, rfl, rfl⟩

/-! ## `server/imports/fqn.rs` — fully qualified names -/

abbrev Url := AdlPath

/-- `Fqn` (`server/imports/fqn.rs:2`). -/
structure Fqn where
  module_name : String
  type_name : String
deriving DecidableEq, Repr

/-- `Fqn::from_module_name_and_type_name` (`server/imports/fqn.rs:8`). -/
def Fqn.from_module_name_and_type_name (module_name type_name : String) :
    Fqn :=
  ⟨module_name, type_name⟩

/-- `Fqn::module_path_parts` (`server/imports/fqn.rs:26`). -/
def Fqn.module_path_parts (f : Fqn) : List String := splitDot f.module_name

/-! ## Association-list models of `HashMap` / `HashSet` -/

/-- `HashMap::get`. -/
def mapLookup {α β : Type} [DecidableEq α] : List (α × β) → α → Option β
  | [], _ => none
  | p :: rest, k => if p.1 = k then some p.2 else mapLookup rest k

/-- `HashMap::insert`: replace the binding in place, or append. -/
def mapInsert {α β : Type} [DecidableEq α] :
    List (α × β) → α → β → List (α × β)
  | [], k, v => [(k, v)]
  | (k', v') :: rest, k, v =>
    if k' = k then (k, v) :: rest else (k', v') :: mapInsert rest k v

/-- `HashMap::remove`. -/
def mapRemove {α β : Type} [DecidableEq α] : List (α × β) → α → List (α × β)
  | [], _ => []
  | p :: rest, k =>
    if p.1 = k then mapRemove rest k else p :: mapRemove rest k

/-- `HashSet::insert`. -/
def setInsert {α : Type} [DecidableEq α] (s : List α) (x : α) : List α :=
  if x ∈ s then s else s ++ [x]

/-- `map.entry(k).or_default()` read access: the entry's set, empty when the
key is absent (an absent entry and an empty set are observationally equal
for every cache read). -/
def getSet {α β : Type} [DecidableEq α] (m : List (α × List β)) (k : α) :
    List β :=
  (mapLookup m k).getD []

/-! ## `server/imports/mod.rs` — the bidirectional FQN cache -/

/-- `ImportsCache` (`server/imports/mod.rs:18`): the three coupled indices.
The `Arc<RwLock<_>>` wrappers are concurrency plumbing; the state they guard
is the three maps. -/
structure ImportsCache where
  definition_locations : List (Fqn × Url)
  imported_symbols : List (Url × List Fqn)
  defined_symbols : List (Url × List Fqn)
deriving DecidableEq, Repr

/-- `ImportsCache::lookup_fqn` (`server/imports/mod.rs:41`). -/
def ImportsCache.lookup_fqn (c : ImportsCache) (fqn : Fqn) : Option Url :=
  mapLookup c.definition_locations fqn

/-- `ImportsCache::get_files_importing_type` (`server/imports/mod.rs:50`). -/
def ImportsCache.get_files_importing_type (c : ImportsCache) (fqn : Fqn) :
    List Url :=
  (c.imported_symbols.filter (fun p => decide (fqn ∈ p.2))).map (fun p => p.1)

/-- `ImportsCache::add_import` (`server/imports/mod.rs:65`). -/
def ImportsCache.add_import (c : ImportsCache) (source_uri : Url) (fqn : Fqn)
    (target_uri : Url) : ImportsCache :=
  { definition_locations := mapInsert c.definition_locations fqn target_uri
    imported_symbols := mapInsert c.imported_symbols source_uri
      (setInsert (getSet c.imported_symbols source_uri) fqn)
    defined_symbols := mapInsert c.defined_symbols target_uri
      (setInsert (getSet c.defined_symbols target_uri) fqn) }

/-- `ImportsCache::add_definition` (`server/imports/mod.rs:82`). -/
def ImportsCache.add_definition (c : ImportsCache) (source_uri : Url)
    (fqn : Fqn) : ImportsCache :=
  { c with
    definition_locations := mapInsert c.definition_locations fqn source_uri
    defined_symbols := mapInsert c.defined_symbols source_uri
      (setInsert (getSet c.defined_symbols source_uri) fqn) }

/-- `ImportsCache::clear_source_caches` (`server/imports/mod.rs:94`): purge
the file's `imported_symbols` and `defined_symbols` entries and remove the
`definition_locations` binding of every FQN the file used to define. -/
def ImportsCache.clear_source_caches (c : ImportsCache) (source_uri : Url) :
    ImportsCache :=
  let definitions := getSet c.defined_symbols source_uri
  { imported_symbols := mapRemove c.imported_symbols source_uri
    defined_symbols := mapRemove c.defined_symbols source_uri
    definition_locations := definitions.foldl
      (fun dl identifier => mapRemove dl identifier) c.definition_locations }

/-- `ImportsCache::find_type_definitions` (`server/imports/mod.rs:278`):
the FQNs of all local type definitions of a tree (module name from the
tree's `module_definition`, type name from the first `type_name` child of
each local-definition node). -/
def ImportsCache.find_type_definitions (tree : ParsedTree) : List Fqn :=
  match tree.find_first_node NodeKind.is_module_definition with
  | none => []
  | some md =>
    let module_name := moduleDefinitionName md.node
    (tree.find_all_nodes NodeKind.is_local_definition).filterMap
      (fun td => (td.node.children.find? NodeKind.is_type_name).map
        (fun tn => Fqn.from_module_name_and_type_name module_name
          tn.data.text))

/-- `ImportsCache::register_document_definitions`
(`server/imports/mod.rs:190`). -/
def ImportsCache.register_document_definitions (c : ImportsCache)
    (source_uri : Url) (tree : ParsedTree) : ImportsCache :=
  (ImportsCache.find_type_definitions tree).foldl
    (fun c definition => c.add_definition source_uri definition) c

/-- The external effects the ingestion pass depends on: the file-system
probes (`fs::exists`, `fs::metadata`, `fs::read_to_string`) and the
`get_or_parse_document_tree` closure injected by the state layer (whose
cache-relevant result is a function of the target URI and the file
system). -/
structure World where
  document_exists : AdlPath → Bool
  metadata_ok : AdlPath → Bool
  read_ok : Url → Bool
  get_or_parse_document_tree : Url → Option ParsedTree

/-- `ImportsCache::expand_star_import` (`server/imports/mod.rs:241`). -/
def ImportsCache.expand_star_import (w : World)
    (package_roots : List AdlPath) (c : ImportsCache) (source_uri : Url)
    (source_module : String) (imported_module_path : List String) :
    ImportsCache :=
  match resolve_import package_roots source_uri source_module
    imported_module_path w.document_exists with
  | some target_uri =>
    if w.read_ok target_uri then
      match w.get_or_parse_document_tree target_uri with
      | some target_tree =>
        (ImportsCache.find_type_definitions target_tree).foldl
          (fun c type_name => c.add_import source_uri type_name target_uri) c
      | none => c
    else c
  | none => c

/-- `ImportsCache::resolve_fully_qualified_import`
(`server/imports/mod.rs:309`): resolve the module path, then register the
edge only when the target file exists (`fs::metadata`). -/
def ImportsCache.resolve_fully_qualified_import (w : World)
    (package_roots : List AdlPath) (c : ImportsCache) (source_uri : Url)
    (source_module : String) (fqn : Fqn) : ImportsCache :=
  match resolve_import package_roots source_uri source_module
    fqn.module_path_parts w.document_exists with
  | some target_uri =>
    if w.metadata_ok target_uri then c.add_import source_uri fqn target_uri
    else c
  | none => c

/-- `ImportsCache::process_import_declaration`
(`server/imports/mod.rs:203`). -/
def ImportsCache.process_import_declaration (w : World)
    (package_roots : List AdlPath) (c : ImportsCache) (source_uri : Url)
    (source_module : String) (import_node : AdlImportDeclaration) :
    ImportsCache :=
  match import_node with
  | .FullyQualified _ =>
    let fqn := Fqn.from_module_name_and_type_name import_node.module_name
      (import_node.imported_type_name.getD "")
    ImportsCache.resolve_fully_qualified_import w package_roots c source_uri
      source_module fqn
  | .StarImport _ =>
    ImportsCache.expand_star_import w package_roots c source_uri
      source_module (splitDot import_node.module_name)

/-- `ImportManager::resolve_document_imports` for `ImportsCache`
(`server/imports/mod.rs:148`): clear the file's prior contributions,
register its local definitions, then process each import declaration in
document order. -/
def ImportsCache.resolve_document_imports (w : World)
    (package_roots : List AdlPath) (c : ImportsCache) (source_uri : Url)
    (source_tree : ParsedTree) : ImportsCache :=
  let c := c.clear_source_caches source_uri
  let c := c.register_document_definitions source_uri source_tree
  let import_nodes :=
    (source_tree.find_all_nodes NodeKind.is_import_declaration).filterMap
      (fun p => AdlImportDeclaration.try_new p.node)
  let source_module :=
    ((source_tree.find_first_node NodeKind.is_module_definition).map
      (fun p => moduleDefinitionName p.node)).getD ""
  import_nodes.foldl
    (fun c import_node => ImportsCache.process_import_declaration w
      package_roots c source_uri source_module import_node) c

/-! ### A pure view of the ingestion pass

`resolve_document_imports` mutates the cache through exactly three kinds of
steps: the initial `clear_source_caches`, one `add_definition` per local
definition, and one `add_import` per resolved import edge.  The edges are a
pure function of the tree and the file-system oracles, factored out here so
the cache effect of an ingestion pass can be analysed per key. -/

/-- The `(fqn, target)` edges a single import declaration contributes
(the `add_import` calls of `process_import_declaration`). -/
def importEdges (w : World) (package_roots : List AdlPath) (source_uri : Url)
    (source_module : String) (import_node : AdlImportDeclaration) :
    List (Fqn × Url) :=
  match import_node with
  | .FullyQualified _ =>
    let fqn := Fqn.from_module_name_and_type_name import_node.module_name
      (import_node.imported_type_name.getD "")
    match resolve_import package_roots source_uri source_module
      fqn.module_path_parts w.document_exists with
    | some target_uri =>
      if w.metadata_ok target_uri then [(fqn, target_uri)] else []
    | none => []
  | .StarImport _ =>
    match resolve_import package_roots source_uri source_module
      (splitDot import_node.module_name) w.document_exists with
    | some target_uri =>
      if w.read_ok target_uri then
        match w.get_or_parse_document_tree target_uri with
        | some target_tree =>
          (ImportsCache.find_type_definitions target_tree).map
            (fun tn => (tn, target_uri))
        | none => []
      else []
    | none => []

/-- Fold a list of import edges into the cache with `add_import`. -/
def applyImports (c : ImportsCache) (source_uri : Url)
    (edges : List (Fqn × Url)) : ImportsCache :=
  edges.foldl (fun c e => c.add_import source_uri e.1 e.2) c

/-- Fold a list of definitions into the cache with `add_definition`. -/
def applyDefs (c : ImportsCache) (source_uri : Url) (defs : List Fqn) :
    ImportsCache :=
  defs.foldl (fun c d => c.add_definition source_uri d) c

/-- The typed import declarations of a document, in document order. -/
def docImportNodes (tree : ParsedTree) : List AdlImportDeclaration :=
  (tree.find_all_nodes NodeKind.is_import_declaration).filterMap
    (fun p => AdlImportDeclaration.try_new p.node)

/-- The document's own module name, as read by the ingestion pass. -/
def docSourceModule (tree : ParsedTree) : String :=
  ((tree.find_first_node NodeKind.is_module_definition).map
    (fun p => moduleDefinitionName p.node)).getD ""

/-- All `(fqn, target)` edges an ingestion pass of `tree` records. -/
def docImportEdges (w : World) (package_roots : List AdlPath)
    (source_uri : Url) (tree : ParsedTree) : List (Fqn × Url) :=
  (docImportNodes tree).flatMap
    (importEdges w package_roots source_uri (docSourceModule tree))

theorem applyImports_append (c : ImportsCache) (u : Url)
    (a b : List (Fqn × Url)) :
    applyImports c u (a ++ b) = applyImports (applyImports c u a) u b :=
  List.foldl_append _ _ _ _

theorem process_import_declaration_eq_applyImports (w : World)
    (roots : List AdlPath) (c : ImportsCache) (u : Url) (m : String)
    (node : AdlImportDeclaration) :
    ImportsCache.process_import_declaration w roots c u m node =
      applyImports c u (importEdges w roots u m node) := by
  cases node with
  | FullyQualified n =>
    simp only [ImportsCache.process_import_declaration, importEdges,
      ImportsCache.resolve_fully_qualified_import]
    cases resolve_import roots u m
      (Fqn.from_module_name_and_type_name
        (AdlImportDeclaration.FullyQualified n).module_name
        ((AdlImportDeclaration.FullyQualified n).imported_type_name.getD
          "")).module_path_parts w.document_exists with
    | none => rfl
    | some t =>
      by_cases hm : w.metadata_ok t <;> simp [hm, applyImports]
  | StarImport n =>
    simp only [ImportsCache.process_import_declaration, importEdges,
      ImportsCache.expand_star_import]
    cases resolve_import roots u m
      (splitDot (AdlImportDeclaration.StarImport n).module_name)
      w.document_exists with
    | none => rfl
    | some t =>
      by_cases hr : w.read_ok t
      · simp only [hr, if_true]
        cases w.get_or_parse_document_tree t with
        | none => rfl
        | some ttree => simp [applyImports, List.foldl_map]
      · simp [hr, applyImports]

theorem foldl_process_eq_applyImports (w : World) (roots : List AdlPath)
    (u : Url) (m : String) (nodes : List AdlImportDeclaration)
    (c : ImportsCache) :
    nodes.foldl
      (fun c n => ImportsCache.process_import_declaration w roots c u m n)
      c =
      applyImports c u (nodes.flatMap (importEdges w roots u m)) := by
  induction nodes generalizing c with
  | nil => rfl
  | cons n ns ih =>
    rw [List.foldl_cons, List.flatMap_cons, applyImports_append,
      ← process_import_declaration_eq_applyImports w roots c u m n]
    exact ih _

/-- An ingestion pass is: clear, fold in the definitions, then fold in
the resolved edges. -/
theorem resolve_document_imports_eq (w : World) (roots : List AdlPath)
    (c : ImportsCache) (u : Url) (tree : ParsedTree) :
    ImportsCache.resolve_document_imports w roots c u tree =
      applyImports
        (applyDefs (c.clear_source_caches u) u
          (ImportsCache.find_type_definitions tree))
        u (docImportEdges w roots u tree) := by
  unfold ImportsCache.resolve_document_imports docImportEdges docImportNodes
    docSourceModule
  rw [foldl_process_eq_applyImports]
  rfl

/-! ### Per-key behaviour of the association-list maps -/

theorem mapLookup_mapInsert {α β : Type} [DecidableEq α]
    (m : List (α × β)) (k k' : α) (v : β) :
    mapLookup (mapInsert m k v) k' =
      if k = k' then some v else mapLookup m k' := by
  induction m with
  | nil => simp [mapInsert, mapLookup]
  | cons p rest ih =>
    obtain ⟨k₀, v₀⟩ := p
    by_cases h0 : k₀ = k
    · subst h0
      by_cases h' : k₀ = k' <;> simp [mapInsert, mapLookup, h']
    · by_cases h' : k₀ = k'
      · subst h'
        have hk : ¬ k = k₀ := fun h => h0 h.symm
        simp [mapInsert, mapLookup, h0, hk]
      · simp [mapInsert, mapLookup, h0, h', ih]

theorem mapLookup_mapRemove {α β : Type} [DecidableEq α]
    (m : List (α × β)) (k k' : α) :
    mapLookup (mapRemove m k) k' =
      if k = k' then none else mapLookup m k' := by
  induction m with
  | nil => simp [mapRemove, mapLookup]
  | cons p rest ih =>
    obtain ⟨k₀, v₀⟩ := p
    by_cases h0 : k₀ = k
    · subst h0
      by_cases h' : k₀ = k'
      · subst h'
        simp [mapRemove, mapLookup, ih]
      · simp [mapRemove, mapLookup, h', ih]
    · by_cases h' : k₀ = k'
      · subst h'
        have hk : ¬ k = k₀ := fun h => h0 h.symm
        simp [mapRemove, mapLookup, h0, hk]
      · simp [mapRemove, mapLookup, h0, h', ih]

theorem getSet_mapInsert {α β : Type} [DecidableEq α]
    (m : List (α × List β)) (k k' : α) (v : List β) :
    getSet (mapInsert m k v) k' = if k = k' then v else getSet m k' := by
  unfold getSet
  rw [mapLookup_mapInsert]
  by_cases h : k = k' <;> simp [h]

theorem getSet_mapRemove {α β : Type} [DecidableEq α]
    (m : List (α × List β)) (k k' : α) :
    getSet (mapRemove m k) k' = if k = k' then [] else getSet m k' := by
  unfold getSet
  rw [mapLookup_mapRemove]
  by_cases h : k = k' <;> simp [h]

theorem mapLookup_foldl_mapRemove {α β : Type} [DecidableEq α]
    (L : List α) (m : List (α × β)) (k : α) :
    mapLookup (L.foldl (fun acc x => mapRemove acc x) m) k =
      if k ∈ L then none else mapLookup m k := by
  induction L generalizing m with
  | nil => simp
  | cons x xs ih =>
    rw [List.foldl_cons, ih]
    by_cases hx : k ∈ xs
    · simp [hx]
    · by_cases hk : x = k
      · subst hk
        simp [hx, mapLookup_mapRemove]
      · have hk' : ¬ k = x := fun h => hk h.symm
        simp [hx, hk', mapLookup_mapRemove, hk]

theorem mem_setInsert {α : Type} [DecidableEq α] (s : List α) (x y : α) :
    y ∈ setInsert s x ↔ y ∈ s ∨ y = x := by
  unfold setInsert
  by_cases h : x ∈ s
  · simp only [h, if_true]
    exact ⟨Or.inl, fun hy => hy.elim id (fun e => e ▸ h)⟩
  · simp [h]

theorem mem_foldl_setInsert {α : Type} [DecidableEq α]
    (D : List α) (s : List α) (x : α) :
    x ∈ D.foldl (fun s d => setInsert s d) s ↔ x ∈ s ∨ x ∈ D := by
  induction D generalizing s with
  | nil => simp
  | cons d D ih =>
    rw [List.foldl_cons, ih, mem_setInsert, List.mem_cons]
    tauto

theorem mem_foldl_setInsert_targets (I : List (Fqn × Url)) (s : List Fqn)
    (v : Url) (x : Fqn) :
    x ∈ I.foldl (fun s e => if e.2 = v then setInsert s e.1 else s) s ↔
      x ∈ s ∨ (x, v) ∈ I := by
  induction I generalizing s with
  | nil => simp
  | cons e I ih =>
    obtain ⟨e1, e2⟩ := e
    rw [List.foldl_cons, ih, List.mem_cons]
    by_cases he : e2 = v
    · subst he
      rw [if_pos rfl, mem_setInsert]
      simp only [Prod.mk.injEq]
      tauto
    · have hv : ¬ v = e2 := fun h => he h.symm
      rw [if_neg he]
      simp only [Prod.mk.injEq, hv, and_false, false_or]

/-- The target of the *last* import edge recorded for an FQN: successive
`definition_locations.insert` calls of `add_import` leave the last write. -/
def lastTarget : List (Fqn × Url) → Fqn → Option Url
  | [], _ => none
  | e :: es, f =>
    match lastTarget es f with
    | some t => some t
    | none => if e.1 = f then some e.2 else none

theorem lastTarget_ne_none_of_mem (I : List (Fqn × Url)) (f : Fqn) (t : Url)
    (h : (f, t) ∈ I) : lastTarget I f ≠ none := by
  induction I with
  | nil => cases h
  | cons e I ih =>
    simp only [lastTarget]
    rcases List.mem_cons.mp h with he | hI
    · cases hl : lastTarget I f with
      | some s => simp [hl]
      | none =>
        have hef : e.1 = f ∧ e.2 = t := by
          rw [← he]
          exact ⟨rfl, rfl⟩
        simp [hl, hef.1]
    · cases hl : lastTarget I f with
      | some s => simp [hl]
      | none => exact absurd hl (ih hI)

theorem lastTarget_eq_none (I : List (Fqn × Url)) (f : Fqn)
    (h : ∀ t, (f, t) ∉ I) : lastTarget I f = none := by
  induction I with
  | nil => rfl
  | cons e I ih =>
    obtain ⟨e1, e2⟩ := e
    have hI : ∀ t, (f, t) ∉ I := fun t ht => h t (List.mem_cons_of_mem _ ht)
    have hf : ¬ (e1 = f) := by
      intro hf
      subst hf
      exact h e2 (List.mem_cons_self _ _)
    simp [lastTarget, ih hI, hf]

/-! ### Per-key behaviour of the cache operations -/

theorem add_definition_lookup (c : ImportsCache) (u : Url) (d f : Fqn) :
    (c.add_definition u d).lookup_fqn f =
      if d = f then some u else c.lookup_fqn f :=
  mapLookup_mapInsert _ _ _ _

theorem add_definition_imported (c : ImportsCache) (u : Url) (d : Fqn) :
    (c.add_definition u d).imported_symbols = c.imported_symbols := rfl

theorem add_definition_ds (c : ImportsCache) (u : Url) (d : Fqn) (v : Url) :
    getSet (c.add_definition u d).defined_symbols v =
      if u = v then setInsert (getSet c.defined_symbols u) d
      else getSet c.defined_symbols v :=
  getSet_mapInsert _ _ _ _

theorem add_import_lookup (c : ImportsCache) (u : Url) (f : Fqn) (t : Url)
    (g : Fqn) :
    (c.add_import u f t).lookup_fqn g =
      if f = g then some t else c.lookup_fqn g :=
  mapLookup_mapInsert _ _ _ _

theorem add_import_imported (c : ImportsCache) (u : Url) (f : Fqn) (t : Url)
    (v : Url) :
    getSet (c.add_import u f t).imported_symbols v =
      if u = v then setInsert (getSet c.imported_symbols u) f
      else getSet c.imported_symbols v :=
  getSet_mapInsert _ _ _ _

theorem add_import_ds (c : ImportsCache) (u : Url) (f : Fqn) (t : Url)
    (v : Url) :
    getSet (c.add_import u f t).defined_symbols v =
      if t = v then setInsert (getSet c.defined_symbols t) f
      else getSet c.defined_symbols v :=
  getSet_mapInsert _ _ _ _

theorem clear_imported (c : ImportsCache) (u v : Url) :
    getSet (c.clear_source_caches u).imported_symbols v =
      if u = v then [] else getSet c.imported_symbols v :=
  getSet_mapRemove _ _ _

theorem clear_ds (c : ImportsCache) (u v : Url) :
    getSet (c.clear_source_caches u).defined_symbols v =
      if u = v then [] else getSet c.defined_symbols v :=
  getSet_mapRemove _ _ _

theorem clear_lookup (c : ImportsCache) (u : Url) (f : Fqn) :
    (c.clear_source_caches u).lookup_fqn f =
      if f ∈ getSet c.defined_symbols u then none else c.lookup_fqn f :=
  mapLookup_foldl_mapRemove _ _ _

/-! ### The three indices after an ingestion pass -/

theorem applyDefs_imported (D : List Fqn) (c : ImportsCache) (u : Url) :
    (applyDefs c u D).imported_symbols = c.imported_symbols := by
  induction D generalizing c with
  | nil => rfl
  | cons d D ih =>
    have h : applyDefs c u (d :: D) = applyDefs (c.add_definition u d) u D :=
      rfl
    rw [h, ih, add_definition_imported]

theorem applyDefs_lookup (D : List Fqn) (c : ImportsCache) (u : Url)
    (f : Fqn) :
    (applyDefs c u D).lookup_fqn f =
      if f ∈ D then some u else c.lookup_fqn f := by
  induction D generalizing c with
  | nil => simp [applyDefs]
  | cons d D ih =>
    have h : applyDefs c u (d :: D) = applyDefs (c.add_definition u d) u D :=
      rfl
    rw [h, ih, add_definition_lookup]
    by_cases hD : f ∈ D
    · simp [hD]
    · by_cases hd : d = f
      · subst hd
        simp [hD]
      · have hd' : ¬ f = d := fun hh => hd hh.symm
        simp [hD, hd, hd']

theorem applyDefs_ds (D : List Fqn) (c : ImportsCache) (u v : Url) :
    getSet (applyDefs c u D).defined_symbols v =
      if u = v then
        D.foldl (fun s d => setInsert s d) (getSet c.defined_symbols u)
      else getSet c.defined_symbols v := by
  induction D generalizing c with
  | nil => by_cases h : u = v <;> simp [applyDefs, h]
  | cons d D ih =>
    have h : applyDefs c u (d :: D) = applyDefs (c.add_definition u d) u D :=
      rfl
    rw [h, ih]
    by_cases huv : u = v
    · subst huv
      rw [if_pos rfl, if_pos rfl, List.foldl_cons, add_definition_ds,
        if_pos rfl]
    · rw [if_neg huv, if_neg huv, add_definition_ds, if_neg huv]

theorem applyImports_lookup (I : List (Fqn × Url)) (c : ImportsCache)
    (u : Url) (f : Fqn) :
    (applyImports c u I).lookup_fqn f =
      match lastTarget I f with
      | some t => some t
      | none => c.lookup_fqn f := by
  induction I generalizing c with
  | nil => simp [applyImports, lastTarget]
  | cons e I ih =>
    have h : applyImports c u (e :: I) =
        applyImports (c.add_import u e.1 e.2) u I := rfl
    rw [h, ih, add_import_lookup]
    simp only [lastTarget]
    cases hl : lastTarget I f with
    | some t => rfl
    | none => by_cases he : e.1 = f <;> simp [he]

theorem applyImports_imported (I : List (Fqn × Url)) (c : ImportsCache)
    (u v : Url) :
    getSet (applyImports c u I).imported_symbols v =
      if u = v then
        I.foldl (fun s e => setInsert s e.1) (getSet c.imported_symbols u)
      else getSet c.imported_symbols v := by
  induction I generalizing c with
  | nil => by_cases h : u = v <;> simp [applyImports, h]
  | cons e I ih =>
    have h : applyImports c u (e :: I) =
        applyImports (c.add_import u e.1 e.2) u I := rfl
    rw [h, ih]
    by_cases huv : u = v
    · subst huv
      rw [if_pos rfl, if_pos rfl, List.foldl_cons, add_import_imported,
        if_pos rfl]
    · rw [if_neg huv, if_neg huv, add_import_imported, if_neg huv]

theorem applyImports_ds (I : List (Fqn × Url)) (c : ImportsCache)
    (u v : Url) :
    getSet (applyImports c u I).defined_symbols v =
      I.foldl (fun s e => if e.2 = v then setInsert s e.1 else s)
        (getSet c.defined_symbols v) := by
  induction I generalizing c with
  | nil => simp [applyImports]
  | cons e I ih =>
    have h : applyImports c u (e :: I) =
        applyImports (c.add_import u e.1 e.2) u I := rfl
    rw [h, ih, List.foldl_cons, add_import_ds]
    by_cases he : e.2 = v
    · cases he
      simp
    · rw [if_neg he, if_neg he]

/-- `definitionOf` after an ingestion pass, per FQN: the last import edge
for the FQN wins; else a local definition maps it to the file; else a
previously-owned FQN has been evicted; else the binding is untouched. -/
theorem ingest_lookup_eq (w : World) (roots : List AdlPath)
    (c : ImportsCache) (u : Url) (tree : ParsedTree) (f : Fqn) :
    (ImportsCache.resolve_document_imports w roots c u tree).lookup_fqn f =
      match lastTarget (docImportEdges w roots u tree) f with
      | some t => some t
      | none =>
        if f ∈ ImportsCache.find_type_definitions tree then some u
        else if f ∈ getSet c.defined_symbols u then none
        else c.lookup_fqn f := by
  rw [resolve_document_imports_eq]
  have hreg : applyDefs (c.clear_source_caches u) u
      (ImportsCache.find_type_definitions tree) =
      (c.clear_source_caches u).register_document_definitions u tree := rfl
  rw [← hreg] at *
  rw [applyImports_lookup]
  cases lastTarget (docImportEdges w roots u tree) f with
  | some t => rfl
  | none =>
    show (applyDefs _ u _).lookup_fqn f = _
    rw [applyDefs_lookup, clear_lookup]

/-- `definedBy[u]` after an ingestion pass does not depend on the prior
cache state. -/
theorem ingest_ds_u_eq (w : World) (roots : List AdlPath) (c : ImportsCache)
    (u : Url) (tree : ParsedTree) :
    getSet (ImportsCache.resolve_document_imports w roots c u
        tree).defined_symbols u =
      (docImportEdges w roots u tree).foldl
        (fun s e => if e.2 = u then setInsert s e.1 else s)
        ((ImportsCache.find_type_definitions tree).foldl
          (fun s d => setInsert s d) []) := by
  rw [resolve_document_imports_eq, applyImports_ds, applyDefs_ds, if_pos rfl,
    clear_ds, if_pos rfl]

/-- `importedBy[u]` after an ingestion pass does not depend on the prior
cache state. -/
theorem ingest_imported_u_eq (w : World) (roots : List AdlPath)
    (c : ImportsCache) (u : Url) (tree : ParsedTree) :
    getSet (ImportsCache.resolve_document_imports w roots c u
        tree).imported_symbols u =
      (docImportEdges w roots u tree).foldl (fun s e => setInsert s e.1)
        [] := by
  rw [resolve_document_imports_eq, applyImports_imported, if_pos rfl]
  have h : (applyDefs (c.clear_source_caches u) u
      (ImportsCache.find_type_definitions tree)).imported_symbols =
      (c.clear_source_caches u).imported_symbols := applyDefs_imported _ _ _
  rw [show getSet (applyDefs (c.clear_source_caches u) u
      (ImportsCache.find_type_definitions tree)).imported_symbols u =
      getSet (c.clear_source_caches u).imported_symbols u from by rw [h]]
  rw [clear_imported, if_pos rfl]

/-- C1: ingestion is idempotent with respect to the symbol cache.  Running
the evict-then-repopulate pass for the same file, tree and file-system state
twice in a row leaves `definedBy[u]`, `importedBy[u]` and every
`definitionOf` binding exactly as after running it once: a file's prior
entries in all three indices are purged before its new entries are
written. -/
theorem ingestion_idempotent_per_file (w : World) (roots : List AdlPath)
    (c : ImportsCache) (u : Url) (tree : ParsedTree) :
    getSet (ImportsCache.resolve_document_imports w roots
        (ImportsCache.resolve_document_imports w roots c u tree) u
        tree).defined_symbols u =
      getSet (ImportsCache.resolve_document_imports w roots c u
        tree).defined_symbols u ∧
    getSet (ImportsCache.resolve_document_imports w roots
        (ImportsCache.resolve_document_imports w roots c u tree) u
        tree).imported_symbols u =
      getSet (ImportsCache.resolve_document_imports w roots c u
        tree).imported_symbols u ∧
    ∀ f : Fqn,
      (ImportsCache.resolve_document_imports w roots
        (ImportsCache.resolve_document_imports w roots c u tree) u
        tree).lookup_fqn f =
      (ImportsCache.resolve_document_imports w roots c u
        tree).lookup_fqn f := by
  refine ⟨?_, ?_, ?_⟩
  · rw [ingest_ds_u_eq, ingest_ds_u_eq]
  · rw [ingest_imported_u_eq, ingest_imported_u_eq]
  · intro f
    rw [ingest_lookup_eq, ingest_lookup_eq, ingest_ds_u_eq]
    cases hl : lastTarget (docImportEdges w roots u tree) f with
    | some t => rfl
    | none =>
      by_cases hD : f ∈ ImportsCache.find_type_definitions tree
      · simp [hD]
      · have hmem : f ∉ (docImportEdges w roots u tree).foldl
            (fun s e => if e.2 = u then setInsert s e.1 else s)
            ((ImportsCache.find_type_definitions tree).foldl
              (fun s d => setInsert s d) []) := by
          rw [mem_foldl_setInsert_targets, mem_foldl_setInsert]
          rintro ((h0 | hD') | hI)
          · exact absurd h0 (List.not_mem_nil f)
          · exact hD hD'
          · exact lastTarget_ne_none_of_mem _ _ _ hI hl
        simp [hD, hmem]

/-- C2: eviction is unconditional.  If a file's previous ingestion recorded
`f` as defined by `u`, then re-ingesting `u` from a tree that no longer
defines `f` (and records no import edge for `f`) deletes the `definitionOf`
binding of `f` entirely, so `lookup_fqn f` returns `none` — regardless of
whether any other file's `definedBy` set also contains `f`; the evict step
never consults other files' entries. -/
theorem eviction_unconditional (w : World) (roots : List AdlPath)
    (c : ImportsCache) (u : Url) (tree : ParsedTree) (f : Fqn)
    (hprev : f ∈ getSet c.defined_symbols u)
    (hdef : f ∉ ImportsCache.find_type_definitions tree)
    (himp : ∀ tgt, (f, tgt) ∉ docImportEdges w roots u tree) :
    (ImportsCache.resolve_document_imports w roots c u tree).lookup_fqn f
      = none := by
  rw [ingest_lookup_eq, lastTarget_eq_none _ _ himp]
  simp [hdef, hprev]

/-- The C2 witness world: no file system at all. -/
def c2World : World :=
  { document_exists := fun _ => false
    metadata_ok := fun _ => false
    read_ok := fun _ => false
    get_or_parse_document_tree := fun _ => none }

/-- The C2 witness cache: `u.adl`'s previous ingestion recorded `m.T` as
defined by `u.adl`, and the *other* file `w.adl` also has `m.T` in its
`defined_symbols` entry. -/
def c2CacheBefore : ImportsCache :=
  { definition_locations := [(⟨"m", "T"⟩, ["u.adl"])]
    imported_symbols := []
    defined_symbols := [(["u.adl"], [⟨"m", "T"⟩]), (["w.adl"], [⟨"m", "T"⟩])] }

/-- The C2 witness tree for `u.adl` after the edit: the definition of `T`
is gone (an empty module body, no definitions, no imports). -/
def c2TreeAfter : ParsedTree :=
  ⟨["u.adl"], .node ⟨.ModuleBody, "", 0⟩ []⟩

/-- Witness for C2: re-ingesting `u.adl` without the definition of `m.T`
makes `lookup_fqn ⟨m, T⟩` return `none`, although `w.adl` still has `m.T`
in its `defined_symbols` entry. -/
theorem eviction_unconditional_witness :
    (ImportsCache.resolve_document_imports c2World [] c2CacheBefore
      ["u.adl"] c2TreeAfter).lookup_fqn ⟨"m", "T"⟩ = none :=
  eviction_unconditional c2World [] c2CacheBefore ["u.adl"] c2TreeAfter
    ⟨"m", "T"⟩ (by decide) (by decide)
    (by
      intro tgt h
      have hempty : docImportEdges c2World [] ["u.adl"] c2TreeAfter = [] := by
        decide
      rw [hempty] at h
      exact absurd h (List.not_mem_nil _))

/-! ## `parser/symbols.rs` — document symbols -/

def NodeKind.is_type_expression (n : NTree) : Bool :=
  decide (n.data.kind = NodeKind.TypeExpression)

def NodeKind.is_field (n : NTree) : Bool :=
  decide (n.data.kind = NodeKind.Field)

/-- `lsp_types::SymbolKind`, restricted to the codes this server emits. -/
inductive SymKind where
  | MODULE
  | CLASS
  | STRUCT
  | ENUM
  | FIELD
  | ENUM_MEMBER
deriving DecidableEq, Repr

/-- `lsp_types::DocumentSymbol`, restricted to the fields this server
fills (ranges are represented by node identifiers). -/
inductive DocumentSymbol where
  | mk (name : String) (detail : Option String) (kind : SymKind) (sid : Nat)
    (selection_sid : Nat) (children : Option (List DocumentSymbol))

def DocumentSymbol.withChildren :
    DocumentSymbol → List DocumentSymbol → DocumentSymbol
  | .mk n d k s sel _, cs => .mk n d k s sel (some cs)

mutual

/-- `ParsedTree::extract_symbol_name` (`parser/symbols.rs:107`): search the
children recursively for the first identifier or scoped name. -/
def extract_symbol_name : NTree → Option String
  | .node _ cs => extractSymbolNameList cs

def extractSymbolNameList : List NTree → Option String
  | [] => none
  | child :: rest =>
    if NodeKind.is_identifier child || NodeKind.is_scoped_name child then
      some child.data.text
    else
      match extract_symbol_name child with
      | some name => some name
      | none => extractSymbolNameList rest

end

/-- `ParsedTree::extract_details` (`parser/symbols.rs:122`). -/
def extract_details (node : NTree) : Option String :=
  if NodeKind.is_type_definition node || NodeKind.is_newtype_definition node
  then
    (node.children.find? NodeKind.is_type_expression).map
      (fun c => c.data.text)
  else if NodeKind.is_field node then
    (node.children.find? NodeKind.is_type_expression).map
      (fun c => c.data.text)
  else none

mutual

/-- `ParsedTree::extract_selection_range` (`parser/symbols.rs:143`): the
first child's range when it is an identifier, else recurse into the first
child. -/
def extract_selection_range : NTree → Option Nat
  | .node _ cs => extractSelectionRangeList cs

def extractSelectionRangeList : List NTree → Option Nat
  | [] => none
  | child :: _ =>
    if NodeKind.is_identifier child then some child.data.sid
    else extract_selection_range child

end

/-- `ParsedTree::create_symbol` (`parser/symbols.rs:77`). -/
def create_symbol (node : NTree) (symbol_kind : SymKind) :
    Option DocumentSymbol :=
  some (.mk ((extract_symbol_name node).getD "unknown")
    (extract_details node) symbol_kind node.data.sid
    ((extract_selection_range node).getD node.data.sid) none)

/-- `ParsedTree::node_to_symbol` (`parser/symbols.rs:49`); the `Field` case
inspects the grandparent node. -/
def node_to_symbol (p : PNode) : Option DocumentSymbol :=
  match p.node.data.kind with
  | .ModuleDefinition => create_symbol p.node .MODULE
  | .TypeDefinition => create_symbol p.node .CLASS
  | .NewtypeDefinition => create_symbol p.node .CLASS
  | .StructDefinition => create_symbol p.node .STRUCT
  | .UnionDefinition => create_symbol p.node .ENUM
  | .Field =>
    match p.ancestors with
    | _ :: grand :: _ =>
      if NodeKind.is_struct_definition grand then
        create_symbol p.node .FIELD
      else if NodeKind.is_union_definition grand then
        create_symbol p.node .ENUM_MEMBER
      else none
    | _ => create_symbol p.node .FIELD
  | .AnnotationDeclaration => create_symbol p.node .STRUCT
  | _ => none

mutual

/-- `ParsedTree::collect_symbols_from_node` (`parser/symbols.rs:21`):
children that are symbols nest their own recursive collection; children
that are not contribute their collection directly. -/
def collect_symbols_from_node : NTree → List NTree → List DocumentSymbol
  | .node d cs, anc => collectSymbolsList cs (.node d cs :: anc)

def collectSymbolsList : List NTree → List NTree → List DocumentSymbol
  | [], _ => []
  | child :: rest, anc =>
    (match node_to_symbol ⟨child, anc⟩ with
     | some symbol =>
       let children := collect_symbols_from_node child anc
       [if children.isEmpty then symbol
        else symbol.withChildren children]
     | none => collect_symbols_from_node child anc)
    ++ collectSymbolsList rest anc

end

/-- `DocumentSymbols::collect_document_symbols` (`parser/symbols.rs:13`). -/
def collect_document_symbols (t : ParsedTree) : List DocumentSymbol :=
  collect_symbols_from_node t.root []

/-! ## `server/state.rs` — the language-server state -/

/-- `AdlLanguageServerState` (`server/state.rs:17`). -/
structure AdlLanguageServerState where
  adl_file_to_package_root : List (Url × AdlPath)
  package_root_to_adl_files : List (AdlPath × List Url)
  documents : List (Url × String)
  trees : List (Url × ParsedTree)
  symbols : List (Url × List DocumentSymbol)
  import_manager : ImportsCache

/-- The external components the state layer talks to: the tree-sitter
parser (`AdlParser::parse`), `fs::read_to_string`, the
`adl-package.json`-marker walk of `packages::find_package_root_by_marker`,
and the file-system oracles of the import resolver. -/
structure ServerWorld where
  fs : World
  parse : Url → String → Option ParsedTree
  read_file : Url → Option String
  find_package_root_by_marker : Url → Option AdlPath

/-- `AdlLanguageServerState::ingest_document` (`server/state.rs:35`).
Parsing happens before any state is touched; a `None` from the parser
aborts the whole ingestion (`?`), returning the state unchanged.  On
success: cache the document symbols, record the package root (when the
marker walk finds one), run the import resolution pass against the
package roots known to the state, and finally store contents and tree
together.  Diagnostics are computed and published to the client — an
external side effect with no bearing on the state.  The tree/document
insertions the `get_or_parse_document_tree` closure may perform for the
target files of star declarations are summarised by the oracle in `World`
(they never touch the ingested file's own entries nor the cache shape). -/
def AdlLanguageServerState.ingest_document (sw : ServerWorld)
    (st : AdlLanguageServerState) (uri : Url) (contents : String) :
    AdlLanguageServerState × Option Unit :=
  match sw.parse uri contents with
  | none => (st, none)
  | some parsed_tree =>
    let symbols := collect_document_symbols parsed_tree
    let st := { st with symbols := mapInsert st.symbols uri symbols }
    let st :=
      match sw.find_package_root_by_marker uri with
      | some package_root =>
        { st with
          adl_file_to_package_root :=
            mapInsert st.adl_file_to_package_root uri package_root
          package_root_to_adl_files :=
            mapInsert st.package_root_to_adl_files package_root
              (setInsert (getSet st.package_root_to_adl_files package_root)
                uri) }
      | none => st
    let package_roots := st.package_root_to_adl_files.map (fun p => p.1)
    let st := { st with
      import_manager := ImportsCache.resolve_document_imports sw.fs
        package_roots st.import_manager uri parsed_tree }
    let st := { st with
      documents := mapInsert st.documents uri contents
      trees := mapInsert st.trees uri parsed_tree }
    (st, some ())

/-- `AdlLanguageServerState::get_document_tree` (`server/state.rs:147`). -/
def AdlLanguageServerState.get_document_tree (st : AdlLanguageServerState)
    (uri : Url) : Option ParsedTree :=
  mapLookup st.trees uri

/-- `AdlLanguageServerState::get_document_content`
(`server/state.rs:142`). -/
def AdlLanguageServerState.get_document_content
    (st : AdlLanguageServerState) (uri : Url) : Option String :=
  mapLookup st.documents uri

/-- `AdlLanguageServerState::get_document_tree_and_content`
(`server/state.rs:152`). -/
def AdlLanguageServerState.get_document_tree_and_content
    (st : AdlLanguageServerState) (uri : Url) :
    Option (ParsedTree × String) :=
  match mapLookup st.trees uri, mapLookup st.documents uri with
  | some tree, some content => some (tree, content)
  | _, _ => none

/-- `AdlLanguageServerState::get_import_target` (`server/state.rs:132`). -/
def AdlLanguageServerState.get_import_target (st : AdlLanguageServerState)
    (fqn : Fqn) : Option Url :=
  st.import_manager.lookup_fqn fqn

/-- `AdlLanguageServerState::get_files_importing_type`
(`server/state.rs:137`). -/
def AdlLanguageServerState.get_files_importing_type
    (st : AdlLanguageServerState) (fqn : Fqn) : List Url :=
  st.import_manager.get_files_importing_type fqn

/-- C6: parse-failure atomicity.  When the parser produces no tree at all,
ingestion aborts for the file and the entire server state — document store,
stored trees, symbols cache and all three FQN-cache indices — is exactly
the prior state; no eviction or repopulation occurs. -/
theorem parse_failure_retains_state (sw : ServerWorld)
    (st : AdlLanguageServerState) (uri : Url) (contents : String)
    (hparse : sw.parse uri contents = none) :
    AdlLanguageServerState.ingest_document sw st uri contents = (st, none) := by
  unfold AdlLanguageServerState.ingest_document
  rw [hparse]

/-- The C6 witness world: a parser that always fails. -/
def c6World : ServerWorld :=
  { fs :=
      { document_exists := fun _ => false
        metadata_ok := fun _ => false
        read_ok := fun _ => false
        get_or_parse_document_tree := fun _ => none }
    parse := fun _ _ => none
    read_file := fun _ => none
    find_package_root_by_marker := fun _ => none }

/-- The C6 witness state: non-trivial prior (stale-but-present) entries for
the file about to be re-ingested. -/
def c6State : AdlLanguageServerState :=
  { adl_file_to_package_root := [(["f.adl"], ["root"])]
    package_root_to_adl_files := [(["root"], [["f.adl"]])]
    documents := [(["f.adl"], "module f {}")]
    trees := [(["f.adl"], ⟨["f.adl"], .node ⟨.ModuleBody, "", 0⟩ []⟩)]
    symbols := [(["f.adl"], [])]
    import_manager :=
      ⟨[(⟨"f", "X"⟩, ["f.adl"])], [], [(["f.adl"], [⟨"f", "X"⟩])]⟩ }

/-- Witness for C6: re-ingesting `f.adl` with unparseable text leaves the
whole state untouched. -/
theorem parse_failure_retains_state_witness :
    AdlLanguageServerState.ingest_document c6World c6State ["f.adl"]
      "garbage" = (c6State, none) :=
  parse_failure_retains_state c6World c6State ["f.adl"] "garbage" rfl

/-! ## `server/mod.rs` — the request handlers built on the state -/

/-- `Tree::get_node_at_position` (`parser/tree.rs:71`):
`descendant_for_point_range` yields the node whose span the position
addresses; positions are node identifiers in this model. -/
def ParsedTree.get_node_at_position (t : ParsedTree) (pos : Nat) :
    Option PNode :=
  (preorderCtx t.root []).find? (fun q => q.node.data.sid == pos)

/-- `ParsedTree::get_identifier_at` (`parser/tree.rs:98`): the node at the
position, filtered to identifiers, with its text. -/
def ParsedTree.get_identifier_at (t : ParsedTree) (pos : Nat) :
    Option (String × PNode) :=
  (t.get_node_at_position pos).bind (fun n =>
    if NodeKind.is_identifier n.node then some (n.node.data.text, n)
    else none)

/-- `async_lsp::ResponseError`, restricted to the internal-error code the
handlers emit. -/
inductive ResponseError where
  | internal (msg : String)
deriving DecidableEq, Repr

/-- `lsp_types::GotoDefinitionResponse`, restricted to the `Scalar` form
the handler emits. -/
inductive GotoDefinitionResponse where
  | Scalar (location : Location)
deriving DecidableEq, Repr

/-- `Server::get_or_parse_document` (`server/mod.rs:391`): tree from the
state, else read the file from disk, ingest it and look again. -/
def Server.get_or_parse_document (sw : ServerWorld)
    (st : AdlLanguageServerState) (uri : Url) :
    Option ParsedTree × AdlLanguageServerState :=
  match st.get_document_tree uri with
  | some existing_tree => (some existing_tree, st)
  | none =>
    match sw.read_file uri with
    | some content =>
      let (st, _) := st.ingest_document sw uri content
      (st.get_document_tree uri, st)
    | none => (none, st)

/-- `Server::get_or_parse_document_with_content` (`server/mod.rs:409`). -/
def Server.get_or_parse_document_with_content (sw : ServerWorld)
    (st : AdlLanguageServerState) (uri : Url) :
    Option (ParsedTree × String) × AdlLanguageServerState :=
  match st.get_document_tree_and_content uri with
  | some result => (some result, st)
  | none =>
    match sw.read_file uri with
    | some content =>
      let (st, _) := st.ingest_document sw uri content
      (st.get_document_tree_and_content uri, st)
    | none => (none, st)

/-- `Server::resolve_import_from_table` (`server/mod.rs:357`): look the FQN
up in the cache, fetch the target document, and run the continuation on its
tree and content; every failure path ends in the single internal error. -/
def Server.resolve_import_from_table {T : Type} (sw : ServerWorld)
    (st : AdlLanguageServerState) (fqn : Fqn)
    (process_import : ParsedTree → String → Except ResponseError T) :
    Except ResponseError T × AdlLanguageServerState :=
  match st.get_import_target fqn with
  | some target_uri =>
    let (mt, st) := Server.get_or_parse_document sw st target_uri
    match mt with
    | some target_tree =>
      match st.get_document_content target_uri with
      | some target_content => (process_import target_tree target_content, st)
      | none => (.error (.internal "no import found in table"), st)
    | none => (.error (.internal "no import found in table"), st)
  | none => (.error (.internal "no import found in table"), st)

/-- `Server::handle_goto_definition` (`server/mod.rs:474`).  Note the gate:
identifiers appearing in scoped names reference a type definition
elsewhere — a node failing `has_scoped_name_parent` short-circuits to
`Ok(None)`. -/
def Server.handle_goto_definition (sw : ServerWorld)
    (st : AdlLanguageServerState) (uri : Url) (pos : Nat) :
    Except ResponseError (Option GotoDefinitionResponse) ×
      AdlLanguageServerState :=
  let (mdoc, st) := Server.get_or_parse_document_with_content sw st uri
  match mdoc with
  | none => (.ok none, st)
  | some (tree, _content) =>
    match tree.get_identifier_at pos with
    | none => (.ok none, st)
    | some (identifier, node) =>
      if !(NodeKind.has_scoped_name_parent node) then (.ok none, st)
      else
        match tree.definition identifier with
        | some (.Resolved location) =>
          (.ok (some (.Scalar location)), st)
        | some (.Import unresolved_import) =>
          let (res, st) := Server.resolve_import_from_table sw st
            (Fqn.from_module_name_and_type_name
              (String.intercalate "." unresolved_import.target_module_path)
              identifier)
            (fun target_tree _contents =>
              match target_tree.definition identifier with
              | some (.Resolved location) => .ok (some location)
              | _ =>
                .error
                  (.internal "import not resolved after lookup in import table"))
          match res with
          | .ok resolved_import =>
            (.ok (resolved_import.map GotoDefinitionResponse.Scalar), st)
          | .error e => (.error e, st)
        | none => (.ok none, st)

/-- `Server::handle_find_references` (`server/mod.rs:535`).  The node must
be reference-eligible (`can_be_referenced`); local references come from the
current tree; cross-file references come from the files the cache records
as importing `(current module name, identifier)`; the defining location is
appended only when the caller requests declarations. -/
def Server.handle_find_references (sw : ServerWorld)
    (st : AdlLanguageServerState) (uri : Url) (pos : Nat)
    (include_declaration : Bool) :
    Except ResponseError (Option (List Location)) ×
      AdlLanguageServerState :=
  let (mdoc, st) := Server.get_or_parse_document_with_content sw st uri
  match mdoc with
  | none => (.ok none, st)
  | some (tree, _contents) =>
    match tree.get_identifier_at pos with
    | none => (.ok none, st)
    | some (identifier, node) =>
      if !(NodeKind.can_be_referenced node) then (.ok none, st)
      else
        let all_references := tree.find_references identifier
        match tree.get_module_name with
        | none => (.error (.internal "could not get module name"), st)
        | some module_name =>
          let importing_files := st.get_files_importing_type
            (Fqn.from_module_name_and_type_name module_name identifier)
          let folded := importing_files.foldl
            (fun (acc : List Location × AdlLanguageServerState)
                importing_file_uri =>
              if importing_file_uri = uri then acc
              else
                let (mtree, st) :=
                  Server.get_or_parse_document sw acc.2 importing_file_uri
                match mtree with
                | some importing_tree =>
                  match st.get_document_content importing_file_uri with
                  | some _importing_content =>
                    (acc.1 ++ importing_tree.find_references identifier, st)
                  | none => (acc.1, st)
                | none => (acc.1, st))
            (all_references, st)
          let all_references := folded.1
          let st := folded.2
          let all_references :=
            if include_declaration then
              match tree.definition identifier with
              | some (.Resolved location) => all_references ++ [location]
              | _ => all_references
            else all_references
          if all_references.isEmpty then (.ok none, st)
          else (.ok (some all_references), st)

/-! ## C8 — the definition-lookup gate -/

/-- C8 (amended): definition lookup returns `none` whenever the node at the
position is not an identifier whose immediate parent is a *scoped-name*
node (`has_scoped_name_parent`) — that, not `can_be_referenced`, is the
gate `handle_goto_definition` applies. -/
theorem goto_definition_scoped_name_gate (sw : ServerWorld)
    (st : AdlLanguageServerState) (uri : Url) (pos : Nat)
    (hgate : ∀ tree content identifier node,
      (Server.get_or_parse_document_with_content sw st uri).1
        = some (tree, content) →
      tree.get_identifier_at pos = some (identifier, node) →
      NodeKind.has_scoped_name_parent node = false) :
    (Server.handle_goto_definition sw st uri pos).1 = .ok none := by
  unfold Server.handle_goto_definition
  rcases hdoc : Server.get_or_parse_document_with_content sw st uri with
    ⟨mdoc, st2⟩
  cases mdoc with
  | none => rfl
  | some doc =>
    obtain ⟨tree, content⟩ := doc
    cases hid : tree.get_identifier_at pos with
    | none => simp [hid]
    | some p =>
      obtain ⟨identifier, node⟩ := p
      have hfalse : NodeKind.has_scoped_name_parent node = false :=
        hgate tree content identifier node (by rw [hdoc]) hid
      simp [hid, hfalse]

/-- The C8 tree: an identifier `X` inside a scoped name (sid 11), another
identifier `X` inside a type name (sid 21). -/
def c8Tree : ParsedTree :=
  ⟨["f.adl"],
    .node ⟨.ModuleBody, "", 0⟩
      [.node ⟨.ScopedName, "X", 10⟩ [.node ⟨.Identifier, "X", 11⟩ []],
       .node ⟨.TypeName, "X", 20⟩ [.node ⟨.Identifier, "X", 21⟩ []]]⟩

/-- The C8 world: no disk, no parser. -/
def c8World : ServerWorld :=
  { fs :=
      { document_exists := fun _ => false
        metadata_ok := fun _ => false
        read_ok := fun _ => false
        get_or_parse_document_tree := fun _ => none }
    parse := fun _ _ => none
    read_file := fun _ => none
    find_package_root_by_marker := fun _ => none }

/-- The C8 server state: `f.adl` is loaded with `c8Tree`. -/
def c8State : AdlLanguageServerState :=
  { adl_file_to_package_root := []
    package_root_to_adl_files := []
    documents := [(["f.adl"], "X X")]
    trees := [(["f.adl"], c8Tree)]
    symbols := []
    import_manager := ⟨[], [], []⟩ }

/-- Counterexample to C8 as stated: the node at position 11 is an
identifier whose parent is a scoped name, hence NOT reference-eligible
(`can_be_referenced` is false) — yet definition lookup does not return
none: it resolves to the `type_name` node at sid 20.  The handler's gate is
`has_scoped_name_parent`, not reference-eligibility. -/
theorem goto_definition_eligibility_counterexample :
    (c8Tree.get_node_at_position 11).map NodeKind.can_be_referenced
      = some false ∧
    (Server.handle_goto_definition c8World c8State ["f.adl"] 11).1
      = .ok (some (.Scalar ⟨["f.adl"], 20⟩)) :=
  ⟨rfl, rfl⟩

/-- The node the C8 witness position (sid 21) addresses: an identifier
whose parent is a `type_name`, so it fails `has_scoped_name_parent`. -/
def c8Node21 : PNode :=
  ⟨.node ⟨.Identifier, "X", 21⟩ [],
   [.node ⟨.TypeName, "X", 20⟩ [.node ⟨.Identifier, "X", 21⟩ []],
    c8Tree.root]⟩

/-- Witness for the amended C8: at position 21 (identifier under a type
name, not under a scoped name) goto-definition returns `Ok(None)`. -/
theorem goto_definition_scoped_name_gate_witness :
    (Server.handle_goto_definition c8World c8State ["f.adl"] 21).1
      = .ok none :=
  goto_definition_scoped_name_gate c8World c8State ["f.adl"] 21
    (by
      intro tree content identifier node hdoc hid
      rw [show (Server.get_or_parse_document_with_content c8World c8State
          ["f.adl"]).1 = some (c8Tree, "X X") from rfl] at hdoc
      injection hdoc with hpair
      injection hpair with htree hcontent
      subst htree
      rw [show c8Tree.get_identifier_at 21 = some ("X", c8Node21) from rfl]
        at hid
      injection hid with hpair2
      injection hpair2 with hident hnode
      subst hnode
      rfl)

/-! ## C7 — cross-file reference search

A three-file workspace: `m.adl` (module `M`) defines and uses `T`;
`f1.adl` (module `N1`) and `f2.adl` (module `N2`) both have a declaration
pulling in `M.T` and a field whose type expression uses `M.T`; `f1.adl`
additionally defines its own local type `T` (FQN `N1.T`), giving it a
reference-eligible node for the name `T`.  The cache holds exactly what
ingesting the three files records. -/

def c7TreeM : ParsedTree :=
  ⟨["m.adl"],
    .node ⟨.ModuleDefinition, "module M { struct T { T x; }; }", 1⟩
      [.node ⟨.Error, "module", 2⟩ [],
       .node ⟨.ScopedName, "M", 3⟩ [.node ⟨.Identifier, "M", 4⟩ []],
       .node ⟨.ModuleBody, "{ struct T { T x; }; }", 5⟩
         [.node ⟨.StructDefinition, "struct T { T x; }", 6⟩
           [.node ⟨.Error, "struct", 7⟩ [],
            .node ⟨.TypeName, "T", 8⟩ [.node ⟨.Identifier, "T", 9⟩ []],
            .node ⟨.FieldBlock, "{ T x; }", 10⟩
              [.node ⟨.Field, "T x;", 11⟩
                [.node ⟨.TypeExpression, "T", 12⟩
                  [.node ⟨.ScopedName, "T", 13⟩
                    [.node ⟨.Identifier, "T", 14⟩ []]],
                 .node ⟨.Identifier, "x", 15⟩ []]]]]]⟩

def c7TreeF1 : ParsedTree :=
  ⟨["f1.adl"],
    .node ⟨.ModuleDefinition, "module N1", 101⟩
      [.node ⟨.Error, "module", 102⟩ [],
       .node ⟨.ScopedName, "N1", 103⟩ [.node ⟨.Identifier, "N1", 104⟩ []],
       .node ⟨.ModuleBody, "", 105⟩
         [.node ⟨.ImportDeclaration, "import M.T;", 106⟩
           [.node ⟨.Error, "import", 107⟩ [],
            .node ⟨.ImportPath, "M.T", 108⟩
              [.node ⟨.ScopedName, "M.T", 109⟩
                [.node ⟨.Identifier, "M", 110⟩ [],
                 .node ⟨.Identifier, "T", 111⟩ []]],
            .node ⟨.Error, ";", 112⟩ []],
          .node ⟨.StructDefinition, "struct T {}", 120⟩
            [.node ⟨.Error, "struct", 121⟩ [],
             .node ⟨.TypeName, "T", 122⟩ [.node ⟨.Identifier, "T", 123⟩ []],
             .node ⟨.FieldBlock, "{}", 124⟩ []],
          .node ⟨.StructDefinition, "struct U { M.T y; }", 130⟩
            [.node ⟨.Error, "struct", 131⟩ [],
             .node ⟨.TypeName, "U", 132⟩ [.node ⟨.Identifier, "U", 133⟩ []],
             .node ⟨.FieldBlock, "{ M.T y; }", 134⟩
               [.node ⟨.Field, "M.T y;", 135⟩
                 [.node ⟨.TypeExpression, "M.T", 136⟩
                   [.node ⟨.ScopedName, "M.T", 137⟩
                     [.node ⟨.Identifier, "M", 138⟩ [],
                      .node ⟨.Identifier, "T", 139⟩ []]],
                  .node ⟨.Identifier, "y", 140⟩ []]]]]]⟩

def c7TreeF2 : ParsedTree :=
  ⟨["f2.adl"],
    .node ⟨.ModuleDefinition, "module N2", 201⟩
      [.node ⟨.Error, "module", 202⟩ [],
       .node ⟨.ScopedName, "N2", 203⟩ [.node ⟨.Identifier, "N2", 204⟩ []],
       .node ⟨.ModuleBody, "", 205⟩
         [.node ⟨.ImportDeclaration, "import M.T;", 206⟩
           [.node ⟨.Error, "import", 207⟩ [],
            .node ⟨.ImportPath, "M.T", 208⟩
              [.node ⟨.ScopedName, "M.T", 209⟩
                [.node ⟨.Identifier, "M", 210⟩ [],
                 .node ⟨.Identifier, "T", 211⟩ []]],
            .node ⟨.Error, ";", 212⟩ []],
          .node ⟨.StructDefinition, "struct V { M.T z; }", 220⟩
            [.node ⟨.Error, "struct", 221⟩ [],
             .node ⟨.TypeName, "V", 222⟩ [.node ⟨.Identifier, "V", 223⟩ []],
             .node ⟨.FieldBlock, "{ M.T z; }", 224⟩
               [.node ⟨.Field, "M.T z;", 225⟩
                 [.node ⟨.TypeExpression, "M.T", 226⟩
                   [.node ⟨.ScopedName, "M.T", 227⟩
                     [.node ⟨.Identifier, "M", 228⟩ [],
                      .node ⟨.Identifier, "T", 229⟩ []]],
                  .node ⟨.Identifier, "z", 230⟩ []]]]]]⟩

/-- The cache state after the three files are ingested. -/
def c7Cache : ImportsCache :=
  { definition_locations :=
      [(⟨"M", "T"⟩, ["m.adl"]), (⟨"N1", "T"⟩, ["f1.adl"]),
       (⟨"N1", "U"⟩, ["f1.adl"]), (⟨"N2", "V"⟩, ["f2.adl"])]
    imported_symbols :=
      [(["f1.adl"], [⟨"M", "T"⟩]), (["f2.adl"], [⟨"M", "T"⟩])]
    defined_symbols :=
      [(["m.adl"], [⟨"M", "T"⟩]),
       (["f1.adl"], [⟨"N1", "T"⟩, ⟨"N1", "U"⟩]),
       (["f2.adl"], [⟨"N2", "V"⟩])] }

def c7State : AdlLanguageServerState :=
  { adl_file_to_package_root := []
    package_root_to_adl_files := []
    documents :=
      [(["m.adl"], "module M { struct T { T x; }; }"),
       (["f1.adl"], "module N1"),
       (["f2.adl"], "module N2")]
    trees :=
      [(["m.adl"], c7TreeM), (["f1.adl"], c7TreeF1), (["f2.adl"], c7TreeF2)]
    symbols := []
    import_manager := c7Cache }

def c7World : ServerWorld :=
  { fs :=
      { document_exists := fun _ => false
        metadata_ok := fun _ => false
        read_ok := fun _ => false
        get_or_parse_document_tree := fun _ => none }
    parse := fun _ _ => none
    read_file := fun _ => none
    find_package_root_by_marker := fun _ => none }

/-- Counterexample to C7 as stated: `T` is defined in module `M` (the cache
maps `M.T` to `m.adl`) and imported by `f1.adl` and `f2.adl`; usage sites
for `T` exist in `m.adl` (sid 13), `f1.adl` (sid 139) and `f2.adl`
(sid 229); position 123 in `f1.adl` is reference-eligible — yet the request
issued from `f1.adl` returns *only* `f1.adl`'s local usage site: the FQN is
built from the current file's module name (`N1`), whose importers are none,
so the usages in `m.adl` and `f2.adl` are missing from the response. -/
theorem find_references_from_importing_file_counterexample :
    c7State.get_import_target ⟨"M", "T"⟩ = some ["m.adl"] ∧
    c7State.get_files_importing_type ⟨"M", "T"⟩
      = [["f1.adl"], ["f2.adl"]] ∧
    c7TreeM.find_references "T" = [⟨["m.adl"], 13⟩] ∧
    c7TreeF2.find_references "T" = [⟨["f2.adl"], 229⟩] ∧
    (c7TreeF1.get_node_at_position 123).map NodeKind.can_be_referenced
      = some true ∧
    (Server.handle_find_references c7World c7State ["f1.adl"] 123 false).1
      = .ok (some [⟨["f1.adl"], 139⟩]) ∧
    (⟨["m.adl"], 13⟩ : Location) ∉ [(⟨["f1.adl"], 139⟩ : Location)] :=
  ⟨rfl, rfl, rfl, rfl, rfl, rfl, by decide⟩

/-- C7 (amended): reference completeness holds when the request is issued
from the defining module.  Issued from `m.adl` at the reference-eligible
node of `T`'s definition, the response contains the usage sites of all
three files (the defining name itself excluded), with the definition
location appended exactly when `includeDeclaration` is set.  Issued from
an importing file, only that file's local usage sites are returned,
because the handler keys the cache by the current file's module name. -/
theorem find_references_completeness_characterised :
    (Server.handle_find_references c7World c7State ["m.adl"] 9 false).1
      = .ok (some [⟨["m.adl"], 13⟩, ⟨["f1.adl"], 139⟩, ⟨["f2.adl"], 229⟩]) ∧
    (Server.handle_find_references c7World c7State ["m.adl"] 9 true).1
      = .ok (some [⟨["m.adl"], 13⟩, ⟨["f1.adl"], 139⟩, ⟨["f2.adl"], 229⟩,
          ⟨["m.adl"], 8⟩]) ∧
    (Server.handle_find_references c7World c7State ["f1.adl"] 123 false).1
      = .ok (some [⟨["f1.adl"], 139⟩]) :=
  ⟨rfl, rfl, rfl⟩
